import Mathlib

/-!
Verification of the live-collection view model of the `FiltrableList`
component (`src/components/list/filtrable-list.tsx`) and of the `signUp`
operation, as a shallow embedding in Lean 4.

JavaScript arrays are lists, `Date.getTime()` timestamps are integers,
`Array.prototype.sort` is modelled as a stable insertion sort
(`List.insertionSort`), and React `setState` updates are record updates.
-/

namespace WordsReminder

/-- Modelled from the spec: `@models/entity` is not in the corpus; the spec
describes an Entity as an opaque record with a stable unique identifier and
an optional `updatedAt` timestamp, other fields being opaque payload. -/
structure Entity where
  id : String
  updatedAt : Option Int
  value : String
deriving DecidableEq, Repr

/-- The `STATUS` constants (`@constants/statuses`). -/
inductive Status where
  | loading
  | success
  | error
deriving DecidableEq, Repr

/-- Modelled from the spec: `@utils/is-string-empty` is not in the corpus; per
the spec an absent or empty string counts as empty ("when absent or empty, no
filtering is applied"). -/
def isStringEmpty : Option String → Bool
  | none => true
  | some s => s.isEmpty

/-- `compareUpdatedAt` (filtrable-list.tsx, lines 100-105): returns 0 when
either side's `updatedAt` is null, otherwise `e2.getTime() - e1.getTime()`. -/
def compareUpdatedAt (e1 e2 : Entity) : Int :=
  match e2.updatedAt, e1.updatedAt with
  | some t2, some t1 => t2 - t1
  | _, _ => 0

/-- The order relation induced by `compareUpdatedAt` under JavaScript sort
semantics: `a` may stay before `b` exactly when the comparator is ≤ 0. -/
def entityLE (e1 e2 : Entity) : Prop := compareUpdatedAt e1 e2 ≤ 0

instance : DecidableRel entityLE :=
  fun e1 e2 => inferInstanceAs (Decidable (compareUpdatedAt e1 e2 ≤ 0))

/-- `filteredEntities.sort(this.compareUpdatedAt)`: JavaScript's stable sort,
modelled as insertion sort. -/
def sortEntities (l : List Entity) : List Entity := List.insertionSort entityLE l

/-- The pure filtering/sorting core of the memoized `filterEntities`
(filtrable-list.tsx, lines 73-84): filter by the caller-supplied predicate
unless the filter text is empty, then sort by `compareUpdatedAt`. -/
def filterEntities (filterPred : String → Entity → Bool) (entities : List Entity)
    (filter : Option String) : List Entity :=
  sortEntities
    (if isStringEmpty filter then entities
     else entities.filter (fun e => filterPred (filter.getD "") e))

/-- The kind of a Firestore `DocumentChange`. -/
inductive DeltaKind where
  | added
  | modified
  | removed
deriving DecidableEq, Repr

/-- One `DocumentChange`, already converted by `documentSnapshotToEntity`. -/
structure Delta where
  kind : DeltaKind
  entity : Entity
deriving DecidableEq, Repr

/-- One iteration of the `docChanges.forEach` loop in `onCollectionUpdate`
(filtrable-list.tsx, lines 109-129): `added` pushes, `removed` filters out the
id, `modified` maps entries with the matching id to the new entity. -/
def applyDocChange (es : List Entity) (d : Delta) : List Entity :=
  match d.kind with
  | .added => es ++ [d.entity]
  | .removed => es.filter (fun e => e.id ≠ d.entity.id)
  | .modified => es.map (fun e => if e.id = d.entity.id then d.entity else e)

/-- `onCollectionUpdate` (filtrable-list.tsx, lines 107-134): fold the ordered
change list over the current entities array. -/
def onCollectionUpdate (es : List Entity) (ds : List Delta) : List Entity :=
  ds.foldl applyDocChange es

/-- The component state fields of `FiltrableList` (`initialState`). -/
structure CompState where
  entities : List Entity
  filter : Option String
  isRefreshing : Bool
  status : Status
  error : Option String
deriving DecidableEq, Repr

/-- `initialState` (filtrable-list.tsx, lines 48-54). -/
def initialState : CompState :=
  { entities := [], filter := none, isRefreshing := false,
    status := Status.loading, error := none }

/-- The `setState` performed by `onCollectionUpdate`: only `entities`. -/
def onCollectionUpdateFn (ds : List Delta) (st : CompState) : CompState :=
  { st with entities := onCollectionUpdate st.entities ds }

/-- `onCollectionError` (filtrable-list.tsx, lines 136-142): sets `status` to
error and `error` to the translated message; `tr` stands for
`getErrorMessageFromFirestoreError`. -/
def onCollectionErrorFn (tr : String → String) (err : String) (st : CompState) :
    CompState :=
  { st with status := Status.error, error := some (tr err) }

/-- Completion of `refreshEntities` (filtrable-list.tsx, lines 144-159): on a
successful fetch, replace `entities` with the sorted fetched docs and set
`status` to success; on failure set `status` to error and store the
translated message. -/
def refreshEntitiesFn (tr : String → String) (result : Except String (List Entity))
    (st : CompState) : CompState :=
  match result with
  | .ok docs => { st with entities := sortEntities docs, status := Status.success }
  | .error e => { st with status := Status.error, error := some (tr e) }

/-- First `setState` of `handleRefresh` (filtrable-list.tsx, lines 163-175):
only `isRefreshing` is set; `status` is not touched. -/
def handleRefreshStart (st : CompState) : CompState :=
  { st with isRefreshing := true }

/-- Final `setState` of `handleRefresh`, after `refreshEntities` resolved. -/
def handleRefreshEnd (st : CompState) : CompState :=
  { st with isRefreshing := false }

/-- `handleFilterChange` (filtrable-list.tsx, lines 177-181). -/
def handleFilterChangeFn (f : String) (st : CompState) : CompState :=
  { st with filter := some f }

/-- The `setState` of `handleCloseFilterPress` (filtrable-list.tsx, 183-188). -/
def handleCloseFilterPressFn (st : CompState) : CompState :=
  { st with filter := none }

/-- The events that can reach the component state after mount: a snapshot
delta, a snapshot error, the two `setState`s of `handleRefresh`, the
completion of a `refreshEntities` fetch, and the filter handlers. -/
inductive Op where
  | update (ds : List Delta)
  | feedError (err : String)
  | refreshStart
  | refreshDone (result : Except String (List Entity))
  | refreshEnd
  | filterChange (f : String)
  | closeFilter

/-- Dispatch one event to the corresponding handler. -/
def applyOp (tr : String → String) (st : CompState) : Op → CompState
  | .update ds => onCollectionUpdateFn ds st
  | .feedError e => onCollectionErrorFn tr e st
  | .refreshStart => handleRefreshStart st
  | .refreshDone r => refreshEntitiesFn tr r st
  | .refreshEnd => handleRefreshEnd st
  | .filterChange f => handleFilterChangeFn f st
  | .closeFilter => handleCloseFilterPressFn st

/-- The component together with its React mount flag. `componentWillUnmount`
(filtrable-list.tsx, lines 94-98) cancels the snapshot subscription, and React
marks the instance unmounted, after which every `setState` is ignored. -/
structure MState where
  mounted : Bool
  comp : CompState
deriving DecidableEq, Repr

/-- `componentWillUnmount` plus React's unmount bookkeeping: the subscription
is cancelled and the instance is marked unmounted. -/
def teardown (m : MState) : MState := { m with mounted := false }

/-- Deliver one event to the component: every handler writes exclusively via
`setState`, which React ignores on an unmounted instance, so the event is a
no-op once `mounted` is false. -/
def applyOpM (tr : String → String) (m : MState) (op : Op) : MState :=
  if m.mounted then { m with comp := applyOp tr m.comp op } else m

/-- Deliver a sequence of events. -/
def runOps (tr : String → String) (m : MState) (ops : List Op) : MState :=
  ops.foldl (applyOpM tr) m

/-- The component instance with array identity made explicit, for the
`memoize-one` wrapper around `filterEntities`: `entitiesTag` is the identity
of the `state.entities` array object, `memo` caches the last argument pair
(array identity, filter text) together with the last result (its identity and
contents), and `fresh` is the allocator for new array identities. -/
structure RState where
  entitiesTag : Nat
  entities : List Entity
  filter : Option String
  isRefreshing : Bool
  status : Status
  error : Option String
  memo : Option ((Nat × Option String) × (Nat × List Entity))
  fresh : Nat
deriving DecidableEq, Repr

/-- The body of the memoized `filterEntities` on a cache miss
(filtrable-list.tsx, lines 73-84). With an empty filter the local
`filteredEntities` is the state array itself, so `.sort()` reorders the state
array in place and the result is that very array (`entitiesTag` is reused).
With a non-empty filter, `.filter()` allocates a fresh array, which is then
sorted and returned. -/
def computeFilterEntities (filterPred : String → Entity → Bool) (s : RState) :
    RState × (Nat × List Entity) :=
  if isStringEmpty s.filter then
    let res := (s.entitiesTag, sortEntities s.entities)
    ({ s with entities := res.2, memo := some ((s.entitiesTag, s.filter), res) },
     res)
  else
    let res := (s.fresh,
      sortEntities (s.entities.filter (fun e => filterPred (s.filter.getD "") e)))
    ({ s with fresh := s.fresh + 1, memo := some ((s.entitiesTag, s.filter), res) },
     res)

/-- A call `this.filterEntities(this.state.entities, this.state.filter)` of the
`memoize-one` wrapper: when the argument pair (array identity, filter text)
equals the cached one, the cached result object is returned unchanged;
otherwise the body runs and the cache is refreshed. -/
def callFilterEntities (filterPred : String → Entity → Bool) (s : RState) :
    RState × (Nat × List Entity) :=
  match s.memo with
  | some (k, v) =>
    if k = (s.entitiesTag, s.filter) then (s, v)
    else computeFilterEntities filterPred s
  | none => computeFilterEntities filterPred s

/-- `handleFilterChange` on the identity-aware state: sets only `filter`; the
entities array object is untouched. -/
def handleFilterChangeR (s : RState) (f : String) : RState :=
  { s with filter := some f }

/-- A JavaScript error value: either a plain `Error` carrying a message, or a
Firebase SDK error carrying a code and a message. -/
inductive JSError where
  | simple (message : String)
  | firebase (code : String) (message : String)
deriving DecidableEq, Repr

/-- `signUp` (auth source file): validates email then password, throwing a
plain `Error` when one is empty; otherwise awaits
`createUserWithEmailAndPassword`. Any error reaching the `catch` — a
validation error or a backend rejection — is rethrown as
`new Error(getErrorMessageFromFirestoreError(error))`, `tr` here. The second
component records whether the backend call was invoked. -/
def signUp (tr : JSError → String)
    (createUser : String → String → Except JSError Unit)
    (email password : Option String) : Except String Unit × Bool :=
  if isStringEmpty email then
    (Except.error (tr (JSError.simple "Email is required.")), false)
  else if isStringEmpty password then
    (Except.error (tr (JSError.simple "Password is required.")), false)
  else
    match createUser (email.getD "") (password.getD "") with
    | .ok _ => (Except.ok (), true)
    | .error e => (Except.error (tr e), true)

/-- Lookup of the first entity with a given id. -/
def findE : List Entity → String → Option Entity
  | [], _ => none
  | e :: es, i => if e.id = i then some e else findE es i

/-- Modelled from the spec: the per-id outcome of one delta on a mapping —
`added` inserts, `modified` replaces only when present, `removed` deletes. -/
def stepOutcome (cur : Option Entity) (d : Delta) (i : String) : Option Entity :=
  if d.entity.id = i then
    match d.kind with
    | .added => some d.entity
    | .modified => cur.map (fun _ => d.entity)
    | .removed => none
  else cur

/-- Modelled from the spec: the outcome of the last delta for id `i` after a
whole delta sequence, starting from the entry `init` for `i`. -/
def lastOutcome (init : Option Entity) (ds : List Delta) (i : String) :
    Option Entity :=
  ds.foldl (fun cur d => stepOutcome cur d i) init

/-- The feed discipline: every `added` delta targets an id that is absent at
the moment it is applied (Firestore never emits `added` twice for a live id
without an intervening `removed`). -/
def addsFresh : List Entity → List Delta → Bool
  | _, [] => true
  | es, d :: ds =>
    (d.kind ≠ DeltaKind.added || (findE es d.entity.id).isNone) &&
      addsFresh (applyDocChange es d) ds

/-! ## Sorting lemmas -/

theorem entityLE_total (a b : Entity) : entityLE a b ∨ entityLE b a := by
  cases ha : a.updatedAt <;> cases hb : b.updatedAt <;>
    simp only [entityLE, compareUpdatedAt, ha, hb] <;> omega

theorem head_orderedInsert (a : Entity) (l : List Entity) :
    (List.orderedInsert entityLE a l).head? = some a ∨
    (List.orderedInsert entityLE a l).head? = l.head? := by
  cases l with
  | nil => exact Or.inl rfl
  | cons b bs =>
    by_cases h : entityLE a b
    · simp only [List.orderedInsert, if_pos h]
      exact Or.inl rfl
    · simp only [List.orderedInsert, if_neg h]
      exact Or.inr rfl

theorem chain'_orderedInsert (a : Entity) (l : List Entity)
    (h : List.Chain' entityLE l) :
    List.Chain' entityLE (List.orderedInsert entityLE a l) := by
  induction l with
  | nil => simp
  | cons b bs ih =>
    by_cases hab : entityLE a b
    · simp only [List.orderedInsert, if_pos hab]
      exact List.chain'_cons.mpr ⟨hab, h⟩
    · simp only [List.orderedInsert, if_neg hab]
      refine List.chain'_cons'.mpr ⟨?_, ih h.tail⟩
      intro x hx
      rcases head_orderedInsert a bs with hh | hh
      · rw [hh] at hx
        cases hx
        exact (entityLE_total a b).resolve_left hab
      · rw [hh] at hx
        exact (List.chain'_cons'.mp h).1 x hx

theorem chain'_sortEntities (l : List Entity) :
    List.Chain' entityLE (sortEntities l) := by
  unfold sortEntities
  induction l with
  | nil => simp
  | cons a l ih =>
    rw [List.insertionSort]
    exact chain'_orderedInsert a _ ih

/-! ## Theorems -/

/-- Claim C6: the display-sequence sort orders entities descending by
`updatedAt` (on two present timestamps the comparator is ≤ 0 exactly when the
second's timestamp is ≤ the first's, so adjacent sorted entities are
descending), the comparator yields 0 whenever either side's `updatedAt` is
absent, and the sort is stable: any two entities whose comparison is ≤ 0 — in
particular equal or both-absent `updatedAt` — retain their prior relative
order. -/
theorem compare_sort_stable :
    (∀ e1 e2 t1 t2, e1.updatedAt = some t1 → e2.updatedAt = some t2 →
      (compareUpdatedAt e1 e2 ≤ 0 ↔ t2 ≤ t1)) ∧
    (∀ e1 e2, e1.updatedAt = none ∨ e2.updatedAt = none →
      compareUpdatedAt e1 e2 = 0) ∧
    (∀ l, List.Chain' entityLE (sortEntities l)) ∧
    (∀ (l : List Entity) (a b : Entity), List.Sublist [a, b] l →
      compareUpdatedAt a b ≤ 0 → List.Sublist [a, b] (sortEntities l)) := by
  refine ⟨?_, ?_, chain'_sortEntities, ?_⟩
  · intro e1 e2 t1 t2 h1 h2
    simp only [compareUpdatedAt, h1, h2]
    omega
  · intro e1 e2 h
    rcases h with h | h <;> simp [compareUpdatedAt, h]
  · intro l a b hsub hle
    exact List.pair_sublist_insertionSort hle hsub

/-- Claim C6 witness: two entities with absent `updatedAt` compare equal and
keep their relative order through the sort. -/
theorem compare_sort_stable_witness :
    List.Sublist [Entity.mk "a" none "x", Entity.mk "b" none "y"]
      [Entity.mk "a" none "x", Entity.mk "b" none "y",
        Entity.mk "c" (some 5) "z"] ∧
    compareUpdatedAt (Entity.mk "a" none "x") (Entity.mk "b" none "y") ≤ 0 ∧
    List.Sublist [Entity.mk "a" none "x", Entity.mk "b" none "y"]
      (sortEntities [Entity.mk "a" none "x", Entity.mk "b" none "y",
        Entity.mk "c" (some 5) "z"]) :=
  ⟨by decide, by decide,
    compare_sort_stable.2.2.2 _ _ _ (by decide) (by decide)⟩

/-- Claim C2: on any entities state satisfying the data-model invariant
(pairwise-distinct ids), the display sequence has no two elements with the
same id, and it consists (counted with multiplicity) of exactly the entities
for which the caller-supplied predicate holds on the filter text — or of all
entities when the filter is absent or empty. -/
theorem filterEntities_nodup_exact (filterPred : String → Entity → Bool)
    (es : List Entity) (f : Option String)
    (h : (es.map Entity.id).Nodup) :
    ((filterEntities filterPred es f).map Entity.id).Nodup ∧
    ∀ e : Entity, (filterEntities filterPred es f).count e =
      if isStringEmpty f = true ∨ filterPred (f.getD "") e = true
      then es.count e else 0 := by
  have hperm : List.Perm (filterEntities filterPred es f)
      (if isStringEmpty f then es
       else es.filter (fun e => filterPred (f.getD "") e)) :=
    List.perm_insertionSort entityLE _
  constructor
  · refine ((hperm.map Entity.id).nodup_iff).mpr ?_
    by_cases hf : isStringEmpty f
    · simpa [hf] using h
    · simp only [hf, Bool.false_eq_true, if_false]
      exact h.sublist ((List.filter_sublist es).map Entity.id)
  · intro e
    rw [hperm.count_eq e]
    by_cases hf : isStringEmpty f
    · simp [hf]
    · simp only [hf, Bool.false_eq_true, if_false, false_or]
      by_cases hp : filterPred (f.getD "") e
      · rw [if_pos hp, List.count_filter hp]
      · rw [if_neg (by simpa using hp), List.count_eq_zero.mpr]
        intro hmem
        exact hp (List.of_mem_filter hmem)

/-- Claim C2 witness: two entities, a filter matching only one of them. -/
theorem filterEntities_nodup_exact_witness :
    (([Entity.mk "a" (some 2) "x", Entity.mk "b" none "y"].map
        Entity.id).Nodup) ∧
    (((filterEntities (fun s e => e.value = s)
        [Entity.mk "a" (some 2) "x", Entity.mk "b" none "y"]
        (some "y")).map Entity.id).Nodup ∧
      ∀ e : Entity, (filterEntities (fun s e => e.value = s)
          [Entity.mk "a" (some 2) "x", Entity.mk "b" none "y"]
          (some "y")).count e =
        if isStringEmpty (some "y") = true ∨ (e.value = "y" : Bool) = true
        then ([Entity.mk "a" (some 2) "x", Entity.mk "b" none "y"]).count e
        else 0) :=
  ⟨by decide, filterEntities_nodup_exact (fun s e => e.value = s) _ _ (by decide)⟩

/-- Claim C7: when the feed's error callback fires, `status` becomes `error`
and the error field holds the translated message, while `entities` (as well as
`filter` and `isRefreshing`) are exactly what they were before. -/
theorem onCollectionError_frame (tr : String → String) (err : String)
    (st : CompState) :
    (onCollectionErrorFn tr err st).status = Status.error ∧
    (onCollectionErrorFn tr err st).error = some (tr err) ∧
    (onCollectionErrorFn tr err st).entities = st.entities ∧
    (onCollectionErrorFn tr err st).filter = st.filter ∧
    (onCollectionErrorFn tr err st).isRefreshing = st.isRefreshing :=
  ⟨rfl, rfl, rfl, rfl, rfl⟩

/-- Claim C8: a `modified` delta whose id is not present leaves the entities
array literally unchanged — nothing fails, nothing is inserted. -/
theorem modified_absent_noop (es : List Entity) (e : Entity)
    (h : e.id ∉ es.map Entity.id) :
    applyDocChange es ⟨DeltaKind.modified, e⟩ = es := by
  induction es with
  | nil => rfl
  | cons a es ih =>
    simp only [List.map_cons, List.mem_cons, not_or] at h
    show List.map (fun x => if x.id = e.id then e else x) (a :: es) = a :: es
    rw [List.map_cons, if_neg (fun hh : a.id = e.id => h.1 (hh ▸ rfl))]
    have tail : List.map (fun x => if x.id = e.id then e else x) es = es := ih h.2
    rw [tail]

/-- Claim C8 witness at a concrete input. -/
theorem modified_absent_noop_witness :
    (Entity.mk "b" none "y").id ∉
      ([Entity.mk "a" (some 1) "x"].map Entity.id) ∧
    applyDocChange [Entity.mk "a" (some 1) "x"]
      ⟨DeltaKind.modified, Entity.mk "b" none "y"⟩ =
      [Entity.mk "a" (some 1) "x"] :=
  ⟨by decide, modified_absent_noop _ _ (by decide)⟩

/-- Claim C3: once `teardown` has run, the instance is unmounted and every
subsequent event — a captured delta callback, a captured error callback, or a
late `refreshEntities` completion — leaves the component state unchanged,
because each handler writes only through `setState`, which React ignores on an
unmounted instance. -/
theorem teardown_no_late_writes (tr : String → String) (m : MState)
    (ops : List Op) :
    (runOps tr (teardown m) ops).comp = m.comp ∧
    (runOps tr (teardown m) ops).mounted = false := by
  have step : ∀ op, applyOpM tr (teardown m) op = teardown m := by
    intro op
    simp [applyOpM, teardown]
  have all : runOps tr (teardown m) ops = teardown m := by
    induction ops with
    | nil => rfl
    | cons op ops ih =>
      show runOps tr (applyOpM tr (teardown m) op) ops = teardown m
      rw [step op]
      exact ih
  rw [all]
  exact ⟨rfl, rfl⟩

/-- Claim C4 counterexample: from an error state, `handleRefresh`'s first
`setState` (the start of a manual refresh) leaves `status` at `error` — it
does not reset it to `loading` as the claim states; only `isRefreshing` is
set. -/
theorem handleRefresh_not_loading :
    (handleRefreshStart
        (CompState.mk [] none false Status.error (some "boom"))).status ≠
      Status.loading ∧
    (handleRefreshStart
        (CompState.mk [] none false Status.error (some "boom"))).status =
      Status.error ∧
    (handleRefreshStart
        (CompState.mk [] none false Status.error (some "boom"))).isRefreshing =
      true := by
  exact ⟨by decide, rfl, rfl⟩

/-- Claim C4 (amended): in an error state, no event changes `status` except
the completion of the fetch issued by a refresh, which sets it to `success` or
back to `error` according to the outcome; the start of a refresh leaves
`status` at `error` (it only sets `isRefreshing` — there is no intermediate
`loading` state). -/
theorem error_status_transitions (tr : String → String) (st : CompState)
    (h : st.status = Status.error) :
    (∀ ds, (applyOp tr st (Op.update ds)).status = Status.error) ∧
    (∀ e, (applyOp tr st (Op.feedError e)).status = Status.error) ∧
    (applyOp tr st Op.refreshStart).status = Status.error ∧
    (applyOp tr st Op.refreshEnd).status = Status.error ∧
    (∀ f, (applyOp tr st (Op.filterChange f)).status = Status.error) ∧
    (applyOp tr st Op.closeFilter).status = Status.error ∧
    (∀ docs,
      (applyOp tr st (Op.refreshDone (Except.ok docs))).status = Status.success) ∧
    (∀ e,
      (applyOp tr st (Op.refreshDone (Except.error e))).status = Status.error) := by
  refine ⟨fun ds => ?_, fun e => ?_, ?_, ?_, fun f => ?_, ?_, fun docs => ?_,
    fun e => ?_⟩ <;>
    simp [applyOp, onCollectionUpdateFn, onCollectionErrorFn, handleRefreshStart,
      handleRefreshEnd, handleFilterChangeFn, handleCloseFilterPressFn,
      refreshEntitiesFn, h]

/-- Claim C4 witness at a concrete error state. -/
theorem error_status_transitions_witness :
    (CompState.mk [] none false Status.error (some "boom")).status =
      Status.error ∧
    (applyOp (fun s => s) (CompState.mk [] none false Status.error (some "boom"))
        Op.refreshStart).status = Status.error :=
  ⟨rfl, (error_status_transitions (fun s => s) _ rfl).2.2.1⟩

/-- Claim C10: `signUp` with an absent or empty email or password rejects
without ever invoking `createUserWithEmailAndPassword`, and every rejection of
`signUp` carries a message produced by the error-translation function. -/
theorem signUp_validation (tr : JSError → String)
    (createUser : String → String → Except JSError Unit)
    (email password : Option String) :
    ((isStringEmpty email = true ∨ isStringEmpty password = true) →
      (∃ m, (signUp tr createUser email password).1 = Except.error m) ∧
      (signUp tr createUser email password).2 = false) ∧
    (∀ m, (signUp tr createUser email password).1 = Except.error m →
      ∃ e, m = tr e) := by
  unfold signUp
  by_cases he : isStringEmpty email
  · simp [he]
  · by_cases hp : isStringEmpty password
    · simp [he, hp]
    · simp only [he, hp, Bool.false_eq_true, if_false, or_self, false_implies,
        true_and]
      cases hcu : createUser (email.getD "") (password.getD "") with
      | ok u => simp
      | error e =>
        simp only [Except.error.injEq, forall_eq']
        exact ⟨e, rfl⟩

/-- Claim C10 witness: absent email, concrete translator and backend. -/
theorem signUp_validation_witness :
    (∃ m, (signUp (fun _ => "translated") (fun _ _ => Except.ok ()) none
        (some "pw")).1 = Except.error m) ∧
    (signUp (fun _ => "translated") (fun _ _ => Except.ok ()) none
        (some "pw")).2 = false :=
  (signUp_validation (fun _ => "translated") (fun _ _ => Except.ok ()) none
      (some "pw")).1 (Or.inl rfl)

/-! ## Reconciliation lemmas -/

theorem findE_eq_none_iff (es : List Entity) (i : String) :
    findE es i = none ↔ i ∉ es.map Entity.id := by
  induction es with
  | nil => simp [findE]
  | cons a es ih =>
    by_cases h : a.id = i
    · simp [findE, h]
    · simp [findE, h, ih]
      exact fun _ hh => h hh.symm

theorem findE_append_single (es : List Entity) (e : Entity) (i : String) :
    findE (es ++ [e]) i =
      match findE es i with
      | some x => some x
      | none => if e.id = i then some e else none := by
  induction es with
  | nil => rfl
  | cons a es ih =>
    simp only [List.cons_append, findE]
    by_cases h : a.id = i
    · simp [h]
    · simp [h, ih]

theorem findE_filter_self (es : List Entity) (j : String) :
    findE (es.filter (fun e => !decide (e.id = j))) j = none := by
  induction es with
  | nil => rfl
  | cons a es ih =>
    by_cases h : a.id = j
    · simp [List.filter_cons, h, ih]
    · simp [List.filter_cons, h, findE, ih]

theorem findE_filter_other (es : List Entity) (j i : String) (hij : i ≠ j) :
    findE (es.filter (fun e => !decide (e.id = j))) i = findE es i := by
  induction es with
  | nil => rfl
  | cons a es ih =>
    by_cases h : a.id = j
    · have ha : a.id ≠ i := fun hh => hij (hh.symm.trans h)
      simp [List.filter_cons, h, findE, ha, ih]
      rw [if_neg (fun hh : j = i => hij hh.symm)]
    · simp [List.filter_cons, h, findE, ih]

theorem findE_modified_self (es : List Entity) (e : Entity) :
    findE (es.map (fun x => if x.id = e.id then e else x)) e.id =
      (findE es e.id).map (fun _ => e) := by
  induction es with
  | nil => rfl
  | cons a es ih =>
    by_cases h : a.id = e.id
    · simp [findE, h]
    · simp [findE, h, ih]

theorem findE_modified_other (es : List Entity) (e : Entity) (i : String)
    (hie : i ≠ e.id) :
    findE (es.map (fun x => if x.id = e.id then e else x)) i = findE es i := by
  induction es with
  | nil => rfl
  | cons a es ih =>
    by_cases h : a.id = e.id
    · have he : e.id ≠ i := fun hh => hie hh.symm
      have ha : a.id ≠ i := fun hh => hie ((hh.symm.trans h).symm ▸ rfl)
      simp [findE, h, he, ha, ih]
    · simp [findE, h, ih]

theorem ids_modified (es : List Entity) (e : Entity) :
    (es.map (fun x => if x.id = e.id then e else x)).map Entity.id =
      es.map Entity.id := by
  induction es with
  | nil => rfl
  | cons a es ih =>
    by_cases h : a.id = e.id <;> simp [h, ih]

theorem applyDocChange_findE (es : List Entity) (d : Delta) (i : String)
    (hfresh : d.kind = DeltaKind.added → findE es d.entity.id = none) :
    findE (applyDocChange es d) i = stepOutcome (findE es i) d i := by
  rcases d with ⟨k, e⟩
  cases k with
  | added =>
    have hf := hfresh rfl
    show findE (es ++ [e]) i = _
    rw [findE_append_single]
    unfold stepOutcome
    by_cases hei : e.id = i
    · subst hei
      rw [hf]
    · simp only [if_neg hei]
      cases hfe : findE es i <;> simp [hei]
  | removed =>
    show findE (es.filter fun x => x.id ≠ e.id) i = _
    simp only [ne_eq, decide_not]
    unfold stepOutcome
    by_cases hei : e.id = i
    · subst hei
      simp [findE_filter_self]
    · rw [if_neg hei]
      exact findE_filter_other es e.id i (fun hh => hei hh.symm)
  | modified =>
    show findE (es.map fun x => if x.id = e.id then e else x) i = _
    unfold stepOutcome
    by_cases hei : e.id = i
    · subst hei
      simp [findE_modified_self]
    · rw [if_neg hei]
      exact findE_modified_other es e i (fun hh => hei hh.symm)

theorem applyDocChange_nodup (es : List Entity) (d : Delta)
    (hnd : (es.map Entity.id).Nodup)
    (hfresh : d.kind = DeltaKind.added → findE es d.entity.id = none) :
    ((applyDocChange es d).map Entity.id).Nodup := by
  rcases d with ⟨k, e⟩
  cases k with
  | added =>
    have hnotin : e.id ∉ es.map Entity.id :=
      (findE_eq_none_iff es e.id).mp (hfresh rfl)
    show ((es ++ [e]).map Entity.id).Nodup
    rw [List.map_append]
    simp [List.nodup_append, hnd, hnotin]
  | removed =>
    exact hnd.sublist ((List.filter_sublist es).map Entity.id)
  | modified =>
    show ((es.map fun x => if x.id = e.id then e else x).map Entity.id).Nodup
    rw [ids_modified]
    exact hnd

/-- Claim C1 counterexample: two `added` deltas for the same id do not
overwrite — `onCollectionUpdate` pushes both, leaving two entries with the
same id. -/
theorem added_duplicate_id :
    onCollectionUpdate []
        [⟨DeltaKind.added, Entity.mk "w1" none "hello"⟩,
          ⟨DeltaKind.added, Entity.mk "w1" none "world"⟩] =
      [Entity.mk "w1" none "hello", Entity.mk "w1" none "world"] ∧
    ¬ (((onCollectionUpdate []
          [⟨DeltaKind.added, Entity.mk "w1" none "hello"⟩,
            ⟨DeltaKind.added, Entity.mk "w1" none "world"⟩]).map
        Entity.id).Nodup) := by
  exact ⟨rfl, by decide⟩

/-- Claim C1 (amended): provided every `added` delta targets an id absent at
the moment it is applied (the feed discipline `addsFresh`; the claim's
unrestricted version fails because a second `added` for a present id appends a
duplicate instead of overwriting), applying a delta sequence yields an
entities array with pairwise-distinct ids in which the entry for each id is
the outcome of the last delta for that id — `modified`/`removed` on absent
ids being no-ops. -/
theorem onCollectionUpdate_reconciles (es : List Entity) (ds : List Delta)
    (hnd : (es.map Entity.id).Nodup) (hwf : addsFresh es ds = true) :
    (((onCollectionUpdate es ds).map Entity.id).Nodup) ∧
    ∀ i, findE (onCollectionUpdate es ds) i = lastOutcome (findE es i) ds i := by
  induction ds generalizing es with
  | nil => exact ⟨hnd, fun i => rfl⟩
  | cons d ds ih =>
    rw [addsFresh, Bool.and_eq_true] at hwf
    have hfresh : d.kind = DeltaKind.added → findE es d.entity.id = none := by
      intro hk
      rcases Bool.or_eq_true_iff.mp hwf.1 with hc | hc
      · exact absurd hk (by simpa using hc)
      · exact Option.isNone_iff_eq_none.mp hc
    obtain ⟨h1, h2⟩ := ih (applyDocChange es d)
      (applyDocChange_nodup es d hnd hfresh) hwf.2
    refine ⟨h1, fun i => ?_⟩
    show findE (onCollectionUpdate (applyDocChange es d) ds) i =
      lastOutcome (findE es i) (d :: ds) i
    rw [h2 i, applyDocChange_findE es d i hfresh]
    rfl

/-- Claim C1 witness: an `added` then a `modified` targeting a different,
absent id (a no-op), applied to an empty collection. -/
theorem onCollectionUpdate_reconciles_witness :
    (((List.map Entity.id []).Nodup) ∧
      addsFresh []
        [⟨DeltaKind.added, Entity.mk "w1" none "hello"⟩,
          ⟨DeltaKind.modified, Entity.mk "w2" none "ghost"⟩] = true) ∧
    ((((onCollectionUpdate []
          [⟨DeltaKind.added, Entity.mk "w1" none "hello"⟩,
            ⟨DeltaKind.modified, Entity.mk "w2" none "ghost"⟩]).map
        Entity.id).Nodup) ∧
      ∀ i, findE (onCollectionUpdate []
          [⟨DeltaKind.added, Entity.mk "w1" none "hello"⟩,
            ⟨DeltaKind.modified, Entity.mk "w2" none "ghost"⟩]) i =
        lastOutcome (findE [] i)
          [⟨DeltaKind.added, Entity.mk "w1" none "hello"⟩,
            ⟨DeltaKind.modified, Entity.mk "w2" none "ghost"⟩] i) :=
  ⟨⟨by decide, by decide⟩,
    onCollectionUpdate_reconciles _ _ (by decide) (by decide)⟩

/-! ## Memoization lemmas -/

theorem callFilterEntities_memo (filterPred : String → Entity → Bool)
    (s : RState) :
    ((callFilterEntities filterPred s).1.memo =
      some (((callFilterEntities filterPred s).1.entitiesTag,
              (callFilterEntities filterPred s).1.filter),
            (callFilterEntities filterPred s).2)) ∧
    (callFilterEntities filterPred s).1.filter = s.filter ∧
    (callFilterEntities filterPred s).1.entitiesTag = s.entitiesTag := by
  cases hm : s.memo with
  | none =>
    by_cases hf : isStringEmpty s.filter <;>
      simp [callFilterEntities, hm, computeFilterEntities, hf]
  | some kv =>
    rcases kv with ⟨k, v⟩
    by_cases hk : k = (s.entitiesTag, s.filter)
    · simp [callFilterEntities, hm, hk]
    · by_cases hf : isStringEmpty s.filter <;>
        simp [callFilterEntities, hm, hk, computeFilterEntities, hf]

theorem callFilterEntities_hit (filterPred : String → Entity → Bool)
    (s : RState) (v : Nat × List Entity)
    (h : s.memo = some ((s.entitiesTag, s.filter), v)) :
    callFilterEntities filterPred s = (s, v) := by
  simp [callFilterEntities, h]

theorem handleFilterChangeR_id (s : RState) (f : String)
    (h : s.filter = some f) :
    handleFilterChangeR s f = s := by
  cases s
  simp only [handleFilterChangeR] at h ⊢
  rw [← h]

/-- Claim C9: setting the filter to the same text twice (no intervening change
to the entities array) makes the second render's call to the memoized
`filterEntities` a cache hit: it returns the very same result object (same
array identity and contents) and leaves the instance unchanged. -/
theorem setFilter_twice_memoized (filterPred : String → Entity → Bool)
    (s : RState) (f : String) :
    callFilterEntities filterPred
        (handleFilterChangeR
          (callFilterEntities filterPred (handleFilterChangeR s f)).1 f) =
      callFilterEntities filterPred (handleFilterChangeR s f) := by
  obtain ⟨hmemo, hfil, -⟩ :=
    callFilterEntities_memo filterPred (handleFilterChangeR s f)
  have hf1 : (callFilterEntities filterPred (handleFilterChangeR s f)).1.filter =
      some f := by
    rw [hfil]
    rfl
  rw [handleFilterChangeR_id _ _ hf1, callFilterEntities_hit filterPred _ _ hmemo]

/-- Claim C5 counterexample: with an empty filter, the memoized
`filterEntities` sorts the state's entities array itself in place — after the
call the stored array's element order has changed. -/
theorem filterEntities_mutates_state :
    (callFilterEntities (fun _ _ => true)
        (RState.mk 0 [Entity.mk "a" (some 1) "x", Entity.mk "b" (some 2) "y"]
          none false Status.success none none 1)).1.entities ≠
      [Entity.mk "a" (some 1) "x", Entity.mk "b" (some 2) "y"] := by
  decide

/-- Claim C5 (amended): a call to the memoized `filterEntities` never changes
`filter`, `status`, `error` or `isRefreshing`, never reallocates the stored
entities array (its identity is preserved), and never changes its contents as
a multiset; when the filter text is non-empty the stored array is left
literally untouched, but with an empty or absent filter the sort runs on the
stored array itself and may reorder it in place. -/
theorem filterEntities_frame (filterPred : String → Entity → Bool)
    (s : RState) :
    (callFilterEntities filterPred s).1.filter = s.filter ∧
    (callFilterEntities filterPred s).1.status = s.status ∧
    (callFilterEntities filterPred s).1.error = s.error ∧
    (callFilterEntities filterPred s).1.isRefreshing = s.isRefreshing ∧
    (callFilterEntities filterPred s).1.entitiesTag = s.entitiesTag ∧
    List.Perm (callFilterEntities filterPred s).1.entities s.entities ∧
    (isStringEmpty s.filter = false →
      (callFilterEntities filterPred s).1.entities = s.entities) := by
  have hcompute :
      (computeFilterEntities filterPred s).1.filter = s.filter ∧
      (computeFilterEntities filterPred s).1.status = s.status ∧
      (computeFilterEntities filterPred s).1.error = s.error ∧
      (computeFilterEntities filterPred s).1.isRefreshing = s.isRefreshing ∧
      (computeFilterEntities filterPred s).1.entitiesTag = s.entitiesTag ∧
      List.Perm (computeFilterEntities filterPred s).1.entities s.entities ∧
      (isStringEmpty s.filter = false →
        (computeFilterEntities filterPred s).1.entities = s.entities) := by
    by_cases hf : isStringEmpty s.filter
    · refine ⟨?_, ?_, ?_, ?_, ?_, ?_, ?_⟩ <;>
        simp [computeFilterEntities, hf, sortEntities,
          List.perm_insertionSort]
    · refine ⟨?_, ?_, ?_, ?_, ?_, ?_, ?_⟩ <;>
        simp [computeFilterEntities, hf]
  cases hm : s.memo with
  | none =>
    simpa [callFilterEntities, hm] using hcompute
  | some kv =>
    rcases kv with ⟨k, v⟩
    by_cases hk : k = (s.entitiesTag, s.filter)
    · simp [callFilterEntities, hm, hk, List.Perm.refl]
    · simpa [callFilterEntities, hm, hk] using hcompute

/-- Claim C5 witness: with a non-empty filter the stored array is literally
untouched. -/
theorem filterEntities_frame_witness :
    isStringEmpty (some "q") = false ∧
    (callFilterEntities (fun _ _ => true)
        (RState.mk 0 [Entity.mk "a" (some 1) "x"] (some "q") false
          Status.success none none 1)).1.entities =
      [Entity.mk "a" (some 1) "x"] :=
  ⟨by decide,
    (filterEntities_frame (fun _ _ => true) _).2.2.2.2.2.2 (by decide)⟩

end WordsReminder
